import Mathlib

/-
  Verification of the SimplyCompete fetch/sync repository.

  Shallow embedding of:
    - src/fetch_participants.py   (SimplyCompeteAPI.fetch_all_participants)
    - src/sync_competitions.py    (get_cookies, _refresh_cookies_with_playwright,
                                   get_competitions, save_competitions,
                                   get_competitions_from_db)
    - src/app.py                  (sync_competitions route)

  JSON values are modelled by the inductive `Json`; Python dictionaries by
  association lists in insertion order.  Remote behaviour (HTTP responses,
  the Playwright browser, the cookie file) is supplied as explicit oracle
  functions / initial state, and the embedded functions thread that state.
-/

/-- A JSON-like Python value.  Numbers are modelled as integers: every number
occurring in the repository (page counters, ids as strings, counts) is
integral, and floating point is out of scope. -/
inductive Json where
  | null : Json
  | bool : Bool → Json
  | num : Int → Json
  | str : String → Json
  | arr : List Json → Json
  | obj : List (String × Json) → Json

/-- A Python dict with JSON values, in insertion order. -/
abbrev PyDict := List (String × Json)

/-- Python dict lookup on a parsed JSON object: with duplicate keys the last
binding wins (as in the json module, which builds the dict left to right). -/
def pyLookup (fs : List (String × Json)) (k : String) : Option Json :=
  match fs with
  | [] => none
  | p :: rest =>
    match pyLookup rest k with
    | some v => some v
    | none => if p.1 == k then some p.2 else none

/-- Python truthiness of a JSON-like value (`bool(x)`). -/
def pyTruthy : Json → Bool
  | Json.null => false
  | Json.bool b => b
  | Json.num n => n != 0
  | Json.str s => s != ""
  | Json.arr xs => !xs.isEmpty
  | Json.obj fs => !fs.isEmpty

/-- Python `j.get(k, dflt)`.  Returns `none` when the receiver is not a dict,
modelling the AttributeError raised in that case. -/
def pyGet (j : Json) (k : String) (dflt : Json) : Option Json :=
  match j with
  | Json.obj fs => some ((pyLookup fs k).getD dflt)
  | _ => none

/-! ## fetch_participants.py : fetch_all_participants -/

/-- Outcome of one HTTP page request, as distinguished by the fetch loop
(src/fetch_participants.py lines 79-109): a transport-level
requests.RequestException, a received non-ok response, a 200 response whose
body fails JSON parsing, or a parsed JSON body. -/
inductive PageResp where
  | transportError : PageResp
  | httpFail : PageResp
  | parseError : PageResp
  | ok : Json → PageResp

/-- Why the pagination loop stopped.  Each constructor corresponds to one exit
path of the while loop in fetch_all_participants: the empty-page break
(line 96), the not-ok break (line 81), the three except-break handlers
(lines 104-112), and the page_no == max_pages loop exit. -/
inductive Reason where
  | exhausted : Reason
  | httpError : Reason
  | transportError : Reason
  | parseError : Reason
  | unexpectedError : Reason
  | safetyStopped : Reason
deriving DecidableEq

/-- The nested extraction
`data.get("data", dict()).get("data", dict()).get("participantList", list())`
(line 94).  `none` models the AttributeError raised when an intermediate
value is not a dict, which the generic except handler turns into a break. -/
def participantListVal (data : Json) : Option Json :=
  match pyGet data "data" (Json.obj []) with
  | none => none
  | some v1 =>
    match pyGet v1 "data" (Json.obj []) with
    | none => none
    | some v2 => pyGet v2 "participantList" (Json.arr [])

/-- What `all_participants.extend(participant_list)` appends for a truthy
value: the elements of a list, the one-character strings of a string, the
keys of a dict.  `none` models the TypeError raised by `len` or `extend`
on a number or boolean. -/
def extendItems : Json → Option (List Json)
  | Json.arr xs => some xs
  | Json.str s => some (s.data.map (fun c => Json.str (String.mk [c])))
  | Json.obj fs => some (fs.map (fun p => Json.str p.1))
  | _ => none

/-- One iteration of the fetch loop classified: either the loop breaks with a
reason, or it accumulates the extracted items and continues. -/
inductive PageStep where
  | stop : Reason → PageStep
  | next : List Json → PageStep

/-- The body of one while-loop iteration of fetch_all_participants
(lines 62-112), after the page request has produced `resp`. -/
def pageStep (resp : PageResp) : PageStep :=
  match resp with
  | PageResp.transportError => PageStep.stop Reason.transportError
  | PageResp.httpFail => PageStep.stop Reason.httpError
  | PageResp.parseError => PageStep.stop Reason.parseError
  | PageResp.ok body =>
    match participantListVal body with
    | none => PageStep.stop Reason.unexpectedError
    | some v =>
      if pyTruthy v then
        match extendItems v with
        | some xs => PageStep.next xs
        | none => PageStep.stop Reason.unexpectedError
      else PageStep.stop Reason.exhausted

/-- The value of one fetch_all_participants run: the accumulated items (the
returned list), the loop exit path, and the number of HTTP requests issued. -/
structure FetchResult where
  items : List Json
  reason : Reason
  requests : Nat

/-- The while loop of fetch_all_participants (lines 61-112).  `pages` is the
remote oracle giving the response for each page index; `fuel` is
`max_pages - page_no`, so fuel 0 is the `page_no < max_pages` exit. -/
def fetchLoop (pages : Nat → PageResp) : Nat → Nat → List Json → FetchResult
  | _, 0, acc => ⟨acc, Reason.safetyStopped, 0⟩
  | pageNo, fuel + 1, acc =>
    match pageStep (pages pageNo) with
    | PageStep.stop r => ⟨acc, r, 1⟩
    | PageStep.next xs =>
      let r := fetchLoop pages (pageNo + 1) fuel (acc ++ xs)
      ⟨r.items, r.reason, r.requests + 1⟩

/-- fetch_all_participants (lines 44-115): page_no starts at 0,
max_pages = 100, the accumulator starts empty. -/
def fetch_all_participants (pages : Nat → PageResp) : FetchResult :=
  fetchLoop pages 0 100 []

/-- Response body of the documented wire shape
`{"data": {"data": {"participantList": [...]}}}`; used to build concrete
test inputs. -/
def wrapBody (xs : List Json) : Json :=
  Json.obj [("data", Json.obj [("data", Json.obj [("participantList", Json.arr xs)])])]

/-! ## Lemmas about the pagination loop -/

/-- Concatenation, in page order, of the item lists of pages
`pageNo, pageNo+1, ..., pageNo+k-1`. -/
def concatPages (ps : Nat → List Json) (pageNo k : Nat) : List Json :=
  (List.range k).flatMap (fun i => ps (pageNo + i))

theorem concatPages_succ_back (ps : Nat → List Json) (pageNo k : Nat) :
    concatPages ps pageNo (k + 1) = concatPages ps pageNo k ++ ps (pageNo + k) := by
  simp [concatPages, List.range_succ]

theorem concatPages_succ_front (ps : Nat → List Json) (pageNo k : Nat) :
    concatPages ps pageNo (k + 1) = ps pageNo ++ concatPages ps (pageNo + 1) k := by
  induction k generalizing pageNo with
  | zero => simp [concatPages, List.range_succ]
  | succ k ih =>
    rw [concatPages_succ_back, ih, concatPages_succ_back, List.append_assoc]
    have : pageNo + (k + 1) = pageNo + 1 + k := by omega
    rw [this]

/-- If the `k` pages starting at `pageNo` all succeed with non-empty item
lists, the loop walks past them, accumulating their items in page order and
counting one request per page. -/
theorem fetchLoop_next_shift (pages : Nat → PageResp) (ps : Nat → List Json) :
    ∀ (k pageNo fuel : Nat) (acc : List Json), k ≤ fuel →
    (∀ i, i < k → pageStep (pages (pageNo + i)) = PageStep.next (ps (pageNo + i))) →
    fetchLoop pages pageNo fuel acc =
      ⟨(fetchLoop pages (pageNo + k) (fuel - k) (acc ++ concatPages ps pageNo k)).items,
       (fetchLoop pages (pageNo + k) (fuel - k) (acc ++ concatPages ps pageNo k)).reason,
       (fetchLoop pages (pageNo + k) (fuel - k) (acc ++ concatPages ps pageNo k)).requests + k⟩ := by
  intro k
  induction k with
  | zero =>
    intro pageNo fuel acc _ _
    simp [concatPages]
  | succ k ih =>
    intro pageNo fuel acc hk h
    cases fuel with
    | zero => omega
    | succ f =>
      have h0 : pageStep (pages pageNo) = PageStep.next (ps pageNo) := by
        have := h 0 (Nat.succ_pos k)
        rwa [Nat.add_zero] at this
      have h' : ∀ i, i < k → pageStep (pages (pageNo + 1 + i)) = PageStep.next (ps (pageNo + 1 + i)) := by
        intro i hi
        have := h (i + 1) (by omega)
        rwa [show pageNo + (i + 1) = pageNo + 1 + i by omega] at this
      have hrec := ih (pageNo + 1) f (acc ++ ps pageNo) (by omega) h'
      simp only [fetchLoop, h0, hrec]
      have e1 : pageNo + 1 + k = pageNo + (k + 1) := by omega
      have e2 : f - k = f + 1 - (k + 1) := by omega
      have e3 : acc ++ ps pageNo ++ concatPages ps (pageNo + 1) k
          = acc ++ concatPages ps pageNo (k + 1) := by
        rw [concatPages_succ_front, List.append_assoc]
      rw [e1, e2, e3]
      congr 1

/-- The loop only looks at pages `pageNo, ..., pageNo + fuel - 1`: two oracles
agreeing there produce the same run. -/
theorem fetchLoop_congr (pages pages' : Nat → PageResp) :
    ∀ (fuel pageNo : Nat) (acc : List Json),
    (∀ i, pageNo ≤ i → i < pageNo + fuel → pages' i = pages i) →
    fetchLoop pages' pageNo fuel acc = fetchLoop pages pageNo fuel acc := by
  intro fuel
  induction fuel with
  | zero => intro pageNo acc _; rfl
  | succ f ih =>
    intro pageNo acc h
    have hpp : pages' pageNo = pages pageNo := h pageNo (Nat.le_refl _) (by omega)
    simp only [fetchLoop, hpp]
    cases hps : pageStep (pages pageNo) with
    | stop r => rfl
    | next xs =>
      dsimp only
      rw [ih (pageNo + 1) (acc ++ xs) (fun i h1 h2 => h i (by omega) (by omega))]

/-! ## sync_competitions.py : cookies and the challenge solver -/

/-- A cookie set as a list of name/value pairs (the shape stored in
cookies.json and produced by `page.context.cookies()`). -/
abbrev CookieList := List (String × String)

/-- One Python-dict insertion: an existing key is updated in place, a new key
is appended. -/
def pyDictInsert (d : CookieList) (kv : String × String) : CookieList :=
  if d.any (fun p => p.1 == kv.1) then
    d.map (fun p => if p.1 == kv.1 then (p.1, kv.2) else p)
  else d ++ [kv]

/-- The dict built by `for cookie in cookies: cookies_dict[name] = value`. -/
def pyDict (cs : CookieList) : CookieList :=
  cs.foldl pyDictInsert []

/-- The test whether the key "cf_clearance" occurs in cookies_dict. -/
def hasClearance (d : CookieList) : Bool :=
  d.any (fun p => p.1 == "cf_clearance")

/-- State of the cookies.json file: absent, unreadable (JSONDecodeError or
KeyError while converting), or a parsed list of name/value cookies. -/
inductive FileContent where
  | corrupt : FileContent
  | good : CookieList → FileContent

/-- Outcome of one _refresh_cookies_with_playwright invocation, as an oracle:
`raised` models an exception escaping the function (see `refresh_cookies_with_playwright`
below: the browser launch is outside the try block), `failed` models the
caught in-try failure returning an empty dict with no file write, `ok cs`
models a successful solve that writes `cs` to cookies.json and returns its
dict. -/
inductive SolveStep where
  | raised : SolveStep
  | failed : SolveStep
  | ok : CookieList → SolveStep

/-- Observable state threaded through one get_competitions run: the cookie
file, and counters for Playwright invocations, HTTP attempts issued, and
cookie-file invalidations (os.remove calls). -/
structure SyncState where
  file : Option FileContent
  solveCount : Nat
  httpCount : Nat
  invalidations : Nat

/-- Result of get_cookies: either an exception escaped (from the solver), or
a cookie dict was returned. -/
inductive CookieLoad where
  | raised : CookieLoad
  | got : CookieList → CookieLoad

/-- The refresh path of get_cookies (line 38): invoke the Playwright solver;
on success the solver has rewritten cookies.json and its dict is returned. -/
def cookiesRefresh (solver : Nat → SolveStep) (st : SyncState) : CookieLoad × SyncState :=
  match solver st.solveCount with
  | SolveStep.raised => (CookieLoad.raised, { st with solveCount := st.solveCount + 1 })
  | SolveStep.failed => (CookieLoad.got [], { st with solveCount := st.solveCount + 1 })
  | SolveStep.ok cs =>
    (CookieLoad.got (pyDict cs),
     { st with file := some (FileContent.good cs), solveCount := st.solveCount + 1 })

/-- get_cookies (src/sync_competitions.py lines 9-38): use the cookies.json
dict when the file exists, parses, and contains cf_clearance; otherwise
refresh with Playwright (which on success rewrites the file). -/
def get_cookies (solver : Nat → SolveStep) (st : SyncState) : CookieLoad × SyncState :=
  match st.file with
  | some (FileContent.good cs) =>
    if hasClearance (pyDict cs) then (CookieLoad.got (pyDict cs), st)
    else cookiesRefresh solver st
  | _ => cookiesRefresh solver st

/-! ## sync_competitions.py : _refresh_cookies_with_playwright in isolation -/

/-- Whether `p.chromium.launch` (plus `new_page` and header setup, lines
50-68, all outside the try block) succeeds. -/
inductive PwLaunch where
  | launchFails : PwLaunch
  | launched : PwLaunch

/-- Whether the in-try phase (navigation, challenge wait, cookie read, file
write, lines 70-98) succeeds, and if so with which browser cookies. -/
inductive PwNav where
  | navFails : PwNav
  | navOk : CookieList → PwNav

/-- How the solve call ends for its caller. -/
inductive SolveOutcome where
  | raised : SolveOutcome
  | returned : CookieList → SolveOutcome

/-- _refresh_cookies_with_playwright (lines 41-104).  Returns the outcome seen
by the caller and what, if anything, was written to cookies.json.  A launch
failure happens before the try block and therefore propagates; an in-try
failure is caught by `except Exception` and returns the empty dict. -/
def refresh_cookies_with_playwright (launch : PwLaunch) (nav : PwNav) :
    SolveOutcome × Option CookieList :=
  match launch with
  | PwLaunch.launchFails => (SolveOutcome.raised, none)
  | PwLaunch.launched =>
    match nav with
    | PwNav.navFails => (SolveOutcome.returned [], none)
    | PwNav.navOk cs => (SolveOutcome.returned (pyDict cs), some cs)

/-! ## sync_competitions.py : get_competitions -/

/-- Outcome of one HTTP call in get_competitions (line 155): a 403, another
error status (which `raise_for_status` turns into a RequestException), a
transport-level RequestException, a 200 whose body fails JSON parsing, or a
parsed JSON body. -/
inductive HttpResp where
  | forbidden : HttpResp
  | httpError : HttpResp
  | transportError : HttpResp
  | okBadJson : HttpResp
  | ok : Json → HttpResp

/-- Result of locating and converting the event list (lines 170-188). -/
inductive ExtractOut where
  | comps : List PyDict → ExtractOut
  | badShape : ExtractOut
  | unexpected : ExtractOut

/-- The projected record `{"id": ..., "name": ..., "startDate": ...}` built
for one event (lines 175-179).  `none` models the AttributeError raised by
`event.get` when the element is not a dict. -/
def eventToComp (e : Json) : Option PyDict :=
  match e with
  | Json.obj fs =>
    some [("id", (pyLookup fs "id").getD Json.null),
          ("name", (pyLookup fs "name").getD Json.null),
          ("startDate", (pyLookup fs "startDate").getD ((pyLookup fs "date").getD Json.null))]
  | _ => none

/-- The filter `if competition["id"] and competition["name"]` (line 181). -/
def compKept (c : PyDict) : Bool :=
  pyTruthy ((pyLookup c "id").getD Json.null) && pyTruthy ((pyLookup c "name").getD Json.null)

/-- The per-event loop of lines 173-182: project each event, keep it when id
and name are truthy; a non-dict element aborts the whole call (AttributeError
caught by the generic handler). -/
def buildComps : List Json → Option (List PyDict)
  | [] => some []
  | e :: rest =>
    match eventToComp e with
    | none => none
    | some c => (buildComps rest).map (fun l => if compKept c then c :: l else l)

/-- Lines 170-188: locate the event list via
`data.get("events", data.get("data", data.get("content", data)))`, require it
to be a list, and build the projected competition records. -/
def extract_events (body : Json) : ExtractOut :=
  match body with
  | Json.obj fs =>
    match (pyLookup fs "events").getD
        ((pyLookup fs "data").getD ((pyLookup fs "content").getD (Json.obj fs))) with
    | Json.arr es =>
      match buildComps es with
      | some l => ExtractOut.comps l
      | none => ExtractOut.unexpected
    | _ => ExtractOut.badShape
  | _ => ExtractOut.unexpected

/-- How a get_competitions run ends.  Every constructor except `success`
corresponds to one `return []` site: no cookies (line 150), unexpected
structure (line 188), JSON parse error (line 196), RequestException on the
final attempt (line 193), the generic exception handler (line 199), and the
fall-through after both attempts got a 403 (line 201). -/
inductive SyncOutcome where
  | success : List PyDict → SyncOutcome
  | noCookies : SyncOutcome
  | badShape : SyncOutcome
  | parseError : SyncOutcome
  | requestError : SyncOutcome
  | unexpected : SyncOutcome
  | authExhausted : SyncOutcome

/-- A get_competitions run: its outcome and the final observable state. -/
structure SyncResult where
  outcome : SyncOutcome
  st : SyncState

/-- The retry loop of get_competitions (lines 142-201), with `fuel` the number
of remaining attempts (max_retries = 2).  On a 403 the cookie file is removed
if present and the loop continues; on a RequestException the loop returns []
only on the final attempt, otherwise it falls through to the next attempt;
JSON and generic errors return [] at once. -/
def get_competitions_loop (solver : Nat → SolveStep)
    (http : Nat → CookieList → HttpResp) (st : SyncState) : Nat → SyncResult
  | 0 => ⟨SyncOutcome.authExhausted, st⟩
  | fuel + 1 =>
    match get_cookies solver st with
    | (CookieLoad.raised, st1) => ⟨SyncOutcome.unexpected, st1⟩
    | (CookieLoad.got cookies, st1) =>
      if cookies.isEmpty then ⟨SyncOutcome.noCookies, st1⟩
      else
        let st2 := { st1 with httpCount := st1.httpCount + 1 }
        match http st1.httpCount cookies with
        | HttpResp.forbidden =>
          get_competitions_loop solver http
            (if st2.file.isSome then
              { st2 with file := none, invalidations := st2.invalidations + 1 }
            else st2) fuel
        | HttpResp.transportError =>
          if fuel = 0 then ⟨SyncOutcome.requestError, st2⟩
          else get_competitions_loop solver http st2 fuel
        | HttpResp.httpError =>
          if fuel = 0 then ⟨SyncOutcome.requestError, st2⟩
          else get_competitions_loop solver http st2 fuel
        | HttpResp.okBadJson => ⟨SyncOutcome.parseError, st2⟩
        | HttpResp.ok body =>
          match extract_events body with
          | ExtractOut.comps l => ⟨SyncOutcome.success l, st2⟩
          | ExtractOut.badShape => ⟨SyncOutcome.badShape, st2⟩
          | ExtractOut.unexpected => ⟨SyncOutcome.unexpected, st2⟩

/-- get_competitions (lines 107-201): two attempts starting from a fresh
run state over the given initial cookies.json content. -/
def get_competitions (solver : Nat → SolveStep) (http : Nat → CookieList → HttpResp)
    (initFile : Option FileContent) : SyncResult :=
  get_competitions_loop solver http ⟨initFile, 0, 0, 0⟩ 2

/-- The list get_competitions actually returns to its caller: the extracted
records on success, the empty list on every other outcome. -/
def outcomeList : SyncOutcome → List PyDict
  | SyncOutcome.success l => l
  | _ => []

/-! ## sync_competitions.py : save_competitions (SQLite upsert) -/

/-- One row of the `competitions` table
`(id TEXT PRIMARY KEY, name TEXT, start_date TEXT)`, in rowid order inside a
`List Row`.  `none` is SQL NULL. -/
structure Row where
  id : Option Json
  name : Option Json
  start_date : Option Json

/-- Conversion of a Python value to the stored SQLite value: an absent key or
None binds NULL, a boolean binds as the integer 0/1, integers and strings
bind as themselves.  Lists and dicts are not bindable (see `bindableV`). -/
def sqlVal : Option Json → Option Json
  | none => none
  | some Json.null => none
  | some (Json.bool b) => some (Json.num (if b then 1 else 0))
  | some v => some v

/-- Whether a Python value can be bound as an SQLite parameter;
`sqlite3` raises (a subclass of sqlite3.Error) on lists and dicts. -/
def bindableV : Option Json → Bool
  | some (Json.arr _) => false
  | some (Json.obj _) => false
  | _ => true

/-- The row inserted for one record: the id, name and startDate values read
from the record dict (line 231), each converted to its stored value. -/
def rowOf (c : PyDict) : Row :=
  ⟨sqlVal (pyLookup c "id"), sqlVal (pyLookup c "name"), sqlVal (pyLookup c "startDate")⟩

/-- All three bound values of a record are bindable. -/
def recBindable (c : PyDict) : Bool :=
  bindableV (pyLookup c "id") && bindableV (pyLookup c "name") &&
    bindableV (pyLookup c "startDate")

/-- SQLite value equality as used for the PRIMARY KEY uniqueness check:
values of different storage classes are distinct; lists and dicts never occur
as stored values (they are not bindable), so comparing them returns false. -/
def sqlEq : Json → Json → Bool
  | Json.null, Json.null => true
  | Json.bool a, Json.bool b => a == b
  | Json.num i, Json.num j => i == j
  | Json.str s, Json.str t => s == t
  | _, _ => false

/-- One `INSERT OR REPLACE INTO competitions` (lines 228-231).  A non-NULL id
deletes any row with an equal id, then the new row is appended (it receives a
fresh rowid).  A NULL id conflicts with nothing — SQLite permits NULL in a
TEXT PRIMARY KEY column, and NULLs are pairwise distinct for uniqueness — so
the row is simply appended. -/
def upsertOne (rows : List Row) (c : PyDict) : List Row :=
  match (rowOf c).id with
  | some k =>
    rows.filter (fun q =>
      match q.id with
      | some k2 => !(sqlEq k2 k)
      | none => true) ++ [rowOf c]
  | none => rows ++ [rowOf c]

/-- save_competitions (lines 204-240): upsert each record in order and commit.
If any record holds an unbindable value, sqlite3 raises before the commit,
the except sqlite3.Error handler swallows it, and the uncommitted transaction
is rolled back on close — the table is unchanged. -/
def save_competitions (rows : List Row) (comps : List PyDict) : List Row :=
  if comps.all recBindable then comps.foldl upsertOne rows else rows

/-! ## sync_competitions.py : get_competitions_from_db -/

/-- SQLite ordering key for a stored value, per the ORDER BY comparison:
NULL before numbers before text; the numeric and textual components order
within a class.  Booleans and containers never occur as stored values. -/
def jkey : Json → Nat × Int × String
  | Json.null => (0, 0, "")
  | Json.bool b => (1, if b then 1 else 0, "")
  | Json.num i => (1, i, "")
  | Json.str s => (2, 0, s)
  | Json.arr _ => (3, 0, "")
  | Json.obj _ => (3, 0, "")

/-- Bytewise (code point) comparison of character lists, the BINARY collation
SQLite applies to TEXT. -/
def chListLe : List Char → List Char → Bool
  | [], _ => true
  | _ :: _, [] => false
  | a :: as, b :: bs =>
    if a.toNat < b.toNat then true
    else if b.toNat < a.toNat then false
    else chListLe as bs

/-- BINARY-collation string comparison. -/
def strLe (s t : String) : Bool :=
  chListLe s.data t.data

/-- Lexicographic comparison of ordering keys. -/
def tripLe : Nat × Int × String → Nat × Int × String → Bool
  | (ra, ia, sa), (rb, ib, sb) =>
    if ra < rb then true
    else if rb < ra then false
    else if ia < ib then true
    else if ib < ia then false
    else strLe sa sb

/-- The ORDER BY comparison on two stored values. -/
def keyLe (a b : Json) : Bool :=
  tripLe (jkey a) (jkey b)

/-- The start_date sort key of a row (NULL compares as `Json.null`). -/
def rowDateKey (r : Row) : Json :=
  r.start_date.getD Json.null

/-- `ORDER BY start_date` comparison between rows. -/
def rowLe (a b : Row) : Bool :=
  keyLe (rowDateKey a) (rowDateKey b)

/-- Insertion into an already ordered list (one step of the sort whose result
models the ORDER BY output; SQLite fixes only the key order, not the order of
equal keys). -/
def insertRow (r : Row) : List Row → List Row
  | [] => [r]
  | x :: xs => if rowLe r x then r :: x :: xs else x :: insertRow r xs

/-- The `ORDER BY start_date` result order. -/
def sortRows : List Row → List Row
  | [] => []
  | x :: xs => insertRow x (sortRows xs)

/-- The dict built for one fetched row (lines 260-264):
a dict with keys id, name and start_date. -/
def rowToDict (r : Row) : PyDict :=
  [("id", r.id.getD Json.null), ("name", r.name.getD Json.null),
   ("start_date", r.start_date.getD Json.null)]

/-- get_competitions_from_db (lines 243-273): on a database error
(`none`) return []; otherwise return the rows of
`SELECT id, name, start_date FROM competitions ORDER BY start_date`
converted to dicts. -/
def get_competitions_from_db (db : Option (List Row)) : List PyDict :=
  match db with
  | none => []
  | some rows => (sortRows rows).map rowToDict

/-! ## app.py : the /competitions/sync route -/

/-- The JSON body and HTTP status produced by the sync_competitions route. -/
structure ApiResponse where
  success : Bool
  message : String
  count : Nat
  competitions : List PyDict
  status : Nat

/-- sync_competitions (src/app.py lines 14-37) applied to the list returned
by get_competitions: an empty list — whatever its cause — yields the 404
failure body, a non-empty list yields the 200 success body. -/
def sync_competitions_route (comps : List PyDict) : ApiResponse :=
  if comps.isEmpty then
    ⟨false, "No competitions found or API call failed", 0, [], 404⟩
  else
    ⟨true, "Successfully synced " ++ toString comps.length ++ " competitions",
     comps.length, comps, 200⟩

/-! ## Claim C1 -/

/-- Claim C1 (amended: the first empty page must lie below the hard-coded
max_pages = 100 bound): for every sequence of page responses whose pages
`0..k-1` succeed with non-empty item lists and whose page `k` is the first
empty page, with `k < 100`, fetch_all_participants returns exactly the
concatenation of the item lists of pages `0..k-1` in page order, with
completion reason exhausted, after exactly `k + 1` requests. -/
theorem fetch_pagination_exhausted (pages : Nat → PageResp) (ps : Nat → List Json) (k : Nat)
    (hk : k < 100)
    (hnext : ∀ i, i < k → pageStep (pages i) = PageStep.next (ps i))
    (hempty : pageStep (pages k) = PageStep.stop Reason.exhausted) :
    fetch_all_participants pages = ⟨concatPages ps 0 k, Reason.exhausted, k + 1⟩ := by
  have hshift := fetchLoop_next_shift pages ps k 0 100 [] (by omega)
    (by intro i hi; simpa using hnext i hi)
  rw [fetch_all_participants, hshift]
  simp only [Nat.zero_add, List.nil_append]
  obtain ⟨m, hm⟩ : ∃ m, 100 - k = m + 1 := ⟨99 - k, by omega⟩
  rw [hm]
  simp only [fetchLoop, hempty]
  congr 1
  omega

/-- Oracle refuting claim C1 as stated: pages 0..99 each succeed with one
item and page 100 is the first empty page. -/
def pagesC1ce : Nat → PageResp :=
  fun i => PageResp.ok (wrapBody (if i < 100 then [Json.str "x"] else []))

/-- Whether an iteration accumulated items and continued. -/
def isNextStep : PageStep → Bool
  | PageStep.next _ => true
  | PageStep.stop _ => false

/-- Claim C1, as stated, is false: on `pagesC1ce` page 100 is the first empty
page, yet the run ends with reason safetyStopped after 100 requests — not
with reason exhausted after 101 requests as the unrestricted claim demands. -/
theorem fetch_pagination_exhausted_counterexample :
    ((List.range 100).all (fun i => isNextStep (pageStep (pagesC1ce i))) = true) ∧
    pageStep (pagesC1ce 100) = PageStep.stop Reason.exhausted ∧
    (fetch_all_participants pagesC1ce).reason = Reason.safetyStopped ∧
    (fetch_all_participants pagesC1ce).requests = 100 ∧
    Reason.safetyStopped ≠ Reason.exhausted :=
  ⟨rfl, rfl, rfl, rfl, by decide⟩

/-- The concrete scenario of claim C1: pages of 50, 50, 0 items. -/
def pages5050 : Nat → PageResp :=
  fun i => PageResp.ok (wrapBody (if i < 2 then List.replicate 50 (Json.str "p") else []))

/-- Witness: with pages of 50, 50 and 0 items the run returns the 100
concatenated items, reason exhausted, and exactly 3 requests. -/
theorem fetch_pagination_exhausted_witness :
    fetch_all_participants pages5050 =
      ⟨concatPages (fun _ => List.replicate 50 (Json.str "p")) 0 2, Reason.exhausted, 3⟩ ∧
    (concatPages (fun _ => List.replicate 50 (Json.str "p")) 0 2).length = 100 := by
  constructor
  · exact fetch_pagination_exhausted pages5050 (fun _ => List.replicate 50 (Json.str "p")) 2
      (by omega) (by intro i hi; interval_cases i <;> rfl) rfl
  · rfl

/-! ## Claim C2 -/

/-- Claim C2: if every page below the max_pages = 100 bound succeeds with a
non-empty item list, fetch_all_participants stops with reason safetyStopped
after exactly 100 requests (pages 0..99), returning the items accumulated so
far; pages with index at least 100 are never requested — the result does not
depend on them. -/
theorem fetch_safety_bound (pages : Nat → PageResp) (ps : Nat → List Json)
    (hnext : ∀ i, i < 100 → pageStep (pages i) = PageStep.next (ps i)) :
    fetch_all_participants pages = ⟨concatPages ps 0 100, Reason.safetyStopped, 100⟩ ∧
    ∀ pages' : Nat → PageResp, (∀ i, i < 100 → pages' i = pages i) →
      fetch_all_participants pages' = fetch_all_participants pages := by
  constructor
  · have hshift := fetchLoop_next_shift pages ps 100 0 100 [] (Nat.le_refl _)
      (by intro i hi; simpa using hnext i hi)
    rw [fetch_all_participants, hshift]
    rfl
  · intro pages' hag
    rw [fetch_all_participants, fetch_all_participants]
    exact fetchLoop_congr pages pages' 100 0 [] (fun i h1 h2 => hag i (by omega))

/-- Oracle for the C2 witness: every page succeeds with one item. -/
def pagesConstW : Nat → PageResp := fun _ => PageResp.ok (wrapBody [Json.str "q"])

/-- Witness: with every page non-empty, the run stops at 100 pages with
reason safetyStopped. -/
theorem fetch_safety_bound_witness :
    fetch_all_participants pagesConstW =
      ⟨concatPages (fun _ => [Json.str "q"]) 0 100, Reason.safetyStopped, 100⟩ :=
  (fetch_safety_bound pagesConstW (fun _ => [Json.str "q"]) (fun _ _ => rfl)).1

/-! ## Claim C9 -/

/-- Claim C9: fetch_all_participants is deterministic.  The remote is
modelled with an explicit call counter (first argument) so that a second,
later run is distinguishable from the first; if the remote answers every
request for a page index identically regardless of when it is asked (an
idempotent remote data set), a second run — whose requests start after the
requests of the first run — produces exactly the same FetchResult. -/
theorem fetch_deterministic (remote : Nat → Nat → PageResp)
    (hstable : ∀ c c2 p, remote c p = remote c2 p) :
    fetch_all_participants
        (fun p => remote ((fetch_all_participants (fun q => remote q q)).requests + p) p) =
      fetch_all_participants (fun q => remote q q) := by
  have hfun : (fun p => remote ((fetch_all_participants (fun q => remote q q)).requests + p) p)
      = (fun q => remote q q) := funext (fun p => hstable _ _ p)
  rw [hfun]

/-- Stable remote for the C9 witness. -/
def remoteW : Nat → Nat → PageResp := fun _ _ => PageResp.ok (wrapBody [])

/-- Witness: two successive runs against a stable remote coincide. -/
theorem fetch_deterministic_witness :
    fetch_all_participants
        (fun p => remoteW ((fetch_all_participants (fun q => remoteW q q)).requests + p) p) =
      fetch_all_participants (fun q => remoteW q q) :=
  fetch_deterministic remoteW (fun _ _ _ => rfl)

/-! ## Cookie dict lemmas -/

theorem pyDictInsert_ne_nil (d : CookieList) (kv : String × String) :
    pyDictInsert d kv ≠ [] := by
  unfold pyDictInsert
  split
  · rename_i h
    cases d with
    | nil => simp at h
    | cons a as => simp
  · simp

theorem foldl_pyDictInsert_ne_nil (l : CookieList) :
    ∀ d : CookieList, d ≠ [] → l.foldl pyDictInsert d ≠ [] := by
  induction l with
  | nil => intro d hd; simpa using hd
  | cons x xs ih => intro d _; exact ih (pyDictInsert d x) (pyDictInsert_ne_nil d x)

theorem pyDict_isEmpty_false (cs : CookieList) (h : cs ≠ []) :
    (pyDict cs).isEmpty = false := by
  cases cs with
  | nil => exact absurd rfl h
  | cons c cs2 =>
    have h2 : pyDict (c :: cs2) ≠ [] := by
      show ((c :: cs2).foldl pyDictInsert []) ≠ []
      rw [List.foldl_cons]
      exact foldl_pyDictInsert_ne_nil cs2 (pyDictInsert [] c) (pyDictInsert_ne_nil [] c)
    cases h3 : pyDict (c :: cs2) with
    | nil => exact absurd h3 h2
    | cons _ _ => rfl

theorem hasClearance_isEmpty_false (d : CookieList) (h : hasClearance d = true) :
    d.isEmpty = false := by
  cases d with
  | nil => simp [hasClearance] at h
  | cons _ _ => rfl

/-! ## Claim C4 -/

/-- Claim C4 (amended): transport failures end fetch_all_participants at
once — after non-empty pages `0..i-1`, a transport failure requesting page
`i` terminates the run with reason transportError and no further requests.
In get_competitions, however, a transport failure is retried: with valid
cached cookies and a remote that always fails at the transport level, the
run issues a second HTTP attempt and only then returns the empty
requestError result. -/
theorem transport_handling_amended :
    (∀ (pages : Nat → PageResp) (ps : Nat → List Json) (i : Nat), i < 100 →
      (∀ j, j < i → pageStep (pages j) = PageStep.next (ps j)) →
      pages i = PageResp.transportError →
      fetch_all_participants pages = ⟨concatPages ps 0 i, Reason.transportError, i + 1⟩) ∧
    (∀ (solver : Nat → SolveStep) (http : Nat → CookieList → HttpResp) (cs : CookieList),
      hasClearance (pyDict cs) = true →
      (∀ n c, http n c = HttpResp.transportError) →
      (get_competitions solver http (some (FileContent.good cs))).outcome =
        SyncOutcome.requestError ∧
      (get_competitions solver http (some (FileContent.good cs))).st.httpCount = 2) := by
  constructor
  · intro pages ps i hi hnext ht
    have hshift := fetchLoop_next_shift pages ps i 0 100 [] (by omega)
      (by intro j hj; simpa using hnext j hj)
    rw [fetch_all_participants, hshift]
    simp only [Nat.zero_add, List.nil_append]
    obtain ⟨m, hm⟩ : ∃ m, 100 - i = m + 1 := ⟨99 - i, by omega⟩
    rw [hm]
    have hstep : pageStep (pages i) = PageStep.stop Reason.transportError := by
      rw [ht]; rfl
    simp only [fetchLoop, hstep]
    congr 1
    omega
  · intro solver http cs hcf hh
    have hne : (pyDict cs).isEmpty = false :=
      hasClearance_isEmpty_false (pyDict cs) hcf
    constructor
    · simp [get_competitions, get_competitions_loop, get_cookies, hcf, hne, hh]
    · simp [get_competitions, get_competitions_loop, get_cookies, hcf, hne, hh]

/-- Claim C4, as stated, is false for get_competitions: with cached valid
cookies and a remote failing at the transport level on every call, the run
issues 2 HTTP attempts — the first transport failure did not end the
operation. -/
theorem transport_handling_counterexample :
    (get_competitions (fun _ => SolveStep.failed) (fun _ _ => HttpResp.transportError)
        (some (FileContent.good [("cf_clearance", "t")]))).st.httpCount = 2 ∧
    (get_competitions (fun _ => SolveStep.failed) (fun _ _ => HttpResp.transportError)
        (some (FileContent.good [("cf_clearance", "t")]))).outcome =
      SyncOutcome.requestError ∧
    (2 : Nat) ≠ 1 :=
  ⟨rfl, rfl, by decide⟩

/-- One good page then a transport failure, for the C4 witness. -/
def pagesTW : Nat → PageResp :=
  fun i => if i = 0 then PageResp.ok (wrapBody [Json.str "a"]) else PageResp.transportError

/-- Witness for both halves of the amended C4 statement at concrete inputs. -/
theorem transport_handling_witness :
    fetch_all_participants pagesTW =
      ⟨concatPages (fun _ => [Json.str "a"]) 0 1, Reason.transportError, 2⟩ ∧
    (get_competitions (fun _ => SolveStep.raised) (fun _ _ => HttpResp.transportError)
        (some (FileContent.good [("cf_clearance", "w")]))).st.httpCount = 2 := by
  constructor
  · exact transport_handling_amended.1 pagesTW (fun _ => [Json.str "a"]) 1 (by omega)
      (by intro j hj; interval_cases j; rfl) rfl
  · exact (transport_handling_amended.2 (fun _ => SolveStep.raised)
      (fun _ _ => HttpResp.transportError) [("cf_clearance", "w")] rfl (fun _ _ => rfl)).2

/-! ## Claim C5 -/

/-- Claim C5 (amended): a failure inside the try block of
_refresh_cookies_with_playwright — navigation error or timeout — is caught
and the call returns the empty credential set without raising; but a browser
launch failure occurs before the try block and propagates as an exception to
the caller. -/
theorem solve_failure_amended :
    refresh_cookies_with_playwright PwLaunch.launched PwNav.navFails =
      (SolveOutcome.returned [], none) ∧
    ∀ nav : PwNav,
      (refresh_cookies_with_playwright PwLaunch.launchFails nav).1 = SolveOutcome.raised :=
  ⟨rfl, fun _ => rfl⟩

/-- Claim C5, as stated, is false: on a browser launch failure the solve
operation raises instead of returning an empty credential set. -/
theorem solve_failure_counterexample :
    (refresh_cookies_with_playwright PwLaunch.launchFails
        (PwNav.navOk [("cf_clearance", "v")])).1 = SolveOutcome.raised ∧
    SolveOutcome.raised ≠ SolveOutcome.returned [] :=
  ⟨rfl, fun h => SolveOutcome.noConfusion h⟩

/-- Witness: the launch-failure half of the amended C5 statement at a
concrete navigation outcome. -/
theorem solve_failure_witness :
    (refresh_cookies_with_playwright PwLaunch.launchFails PwNav.navFails).1 =
      SolveOutcome.raised :=
  solve_failure_amended.2 PwNav.navFails

/-! ## Claim C6 -/

/-- When every element of the event list is a dict, the per-event loop
produces exactly the projected records of the kept events, in order. -/
theorem buildComps_objs (es : List Json) (h : ∀ e ∈ es, (eventToComp e).isSome = true) :
    buildComps es = some (es.filterMap (fun e =>
      (eventToComp e).bind (fun c => if compKept c then some c else none))) := by
  induction es with
  | nil => rfl
  | cons e rest ih =>
    obtain ⟨c, hc⟩ := Option.isSome_iff_exists.mp (h e (List.mem_cons_self e rest))
    have hr := ih (fun x hx => h x (List.mem_cons_of_mem e hx))
    cases hk : compKept c with
    | true => simp [buildComps, hc, hr, List.filterMap_cons, hk]
    | false => simp [buildComps, hc, hr, List.filterMap_cons, hk]

/-- Claim C6 (amended): fetch_all_participants passes the records of the
nested item list through to its result unmodified; get_competitions does
not — it replaces each event record by the three-field projection
`{id, name, startDate}` (with `date` as fallback for `startDate`) and drops
records whose id or name is falsy. -/
theorem records_passthrough_amended :
    (∀ (pages : Nat → PageResp) (xs : List Json),
      pageStep (pages 0) = PageStep.next xs →
      pageStep (pages 1) = PageStep.stop Reason.exhausted →
      (fetch_all_participants pages).items = xs) ∧
    (∀ es : List Json, (∀ e ∈ es, (eventToComp e).isSome = true) →
      extract_events (Json.obj [("events", Json.arr es)]) =
        ExtractOut.comps (es.filterMap (fun e =>
          (eventToComp e).bind (fun c => if compKept c then some c else none)))) := by
  constructor
  · intro pages xs h0 h1
    have hshift := fetchLoop_next_shift pages (fun _ => xs) 1 0 100 [] (by omega)
      (by intro i hi
          have hi0 : i = 0 := by omega
          subst hi0
          simpa using h0)
    rw [fetch_all_participants, hshift]
    simp only [Nat.zero_add, List.nil_append]
    have h99 : (100 : Nat) - 1 = 98 + 1 := by omega
    rw [h99]
    simp only [fetchLoop, h1]
    simp [concatPages, List.range_succ]
  · intro es h
    show (match buildComps es with
        | some l => ExtractOut.comps l
        | none => ExtractOut.unexpected) = _
    rw [buildComps_objs es h]

/-- An event record carrying a field beyond id, name and startDate. -/
def eventC6 : Json :=
  Json.obj [("id", Json.str "7"), ("name", Json.str "Open"),
            ("startDate", Json.str "2025-06-01"), ("city", Json.str "Cairo")]

/-- Claim C6, as stated, is false for get_competitions: the record handed on
for the event `eventC6` is the three-field projection, which lacks the city
field of the original record and is not equal to it. -/
theorem records_passthrough_counterexample :
    extract_events (Json.obj [("events", Json.arr [eventC6])]) =
      ExtractOut.comps [[("id", Json.str "7"), ("name", Json.str "Open"),
        ("startDate", Json.str "2025-06-01")]] ∧
    pyLookup [("id", Json.str "7"), ("name", Json.str "Open"),
        ("startDate", Json.str "2025-06-01")] "city" = none ∧
    pyLookup [("id", Json.str "7"), ("name", Json.str "Open"),
        ("startDate", Json.str "2025-06-01"), ("city", Json.str "Cairo")] "city" =
      some (Json.str "Cairo") ∧
    Json.obj [("id", Json.str "7"), ("name", Json.str "Open"),
        ("startDate", Json.str "2025-06-01")] ≠ eventC6 := by
  refine ⟨rfl, rfl, rfl, ?_⟩
  intro h
  have hlen := congrArg (fun j => match j with | Json.obj fs => fs.length | _ => 0) h
  simp [eventC6] at hlen

/-- Witness: one-page pass-through and one kept projected record. -/
theorem records_passthrough_witness :
    (fetch_all_participants
        (fun i => if i = 0 then PageResp.ok (wrapBody [Json.str "r"])
          else PageResp.ok (wrapBody []))).items = [Json.str "r"] ∧
    extract_events (Json.obj [("events",
        Json.arr [Json.obj [("id", Json.str "1"), ("name", Json.str "A")]])]) =
      ExtractOut.comps [[("id", Json.str "1"), ("name", Json.str "A"),
        ("startDate", Json.null)]] := by
  constructor
  · exact records_passthrough_amended.1 _ [Json.str "r"] rfl rfl
  · have h := records_passthrough_amended.2
      [Json.obj [("id", Json.str "1"), ("name", Json.str "A")]]
      (by intro e he
          have he2 : e = Json.obj [("id", Json.str "1"), ("name", Json.str "A")] := by
            simpa using he
          subst he2
          rfl)
    exact h

/-! ## Claim C7 -/

/-- Claim C7 (amended): the sync route response is a function of the returned
list alone — two runs get the same response exactly when get_competitions
returned the same list.  Since a failed fetch and a successful fetch with
zero items both return the empty list, they receive the identical 404
response: the route does not report fetch failure distinctly from zero
results. -/
theorem route_reports_list_only (xs ys : List PyDict) :
    sync_competitions_route xs = sync_competitions_route ys ↔ xs = ys := by
  constructor
  · intro h
    by_cases hx : xs.isEmpty = true
    · by_cases hy : ys.isEmpty = true
      · have hx2 : xs = [] := by
          cases xs with
          | nil => rfl
          | cons a l => simp at hx
        have hy2 : ys = [] := by
          cases ys with
          | nil => rfl
          | cons a l => simp at hy
        rw [hx2, hy2]
      · exfalso
        simp [sync_competitions_route, hx, hy] at h
    · by_cases hy : ys.isEmpty = true
      · exfalso
        simp [sync_competitions_route, hx, hy] at h
      · have h2 := congrArg ApiResponse.competitions h
        simp [sync_competitions_route, hx, hy] at h2
        exact h2
  · intro h
    rw [h]

/-- Claim C7, as stated, is false: a successful run that found zero items and
a run whose attempts were exhausted by authorization failures are different
conditions, yet the route body produced for them is identical. -/
theorem route_reports_list_only_counterexample :
    (get_competitions (fun _ => SolveStep.ok [("cf_clearance", "z")])
        (fun _ _ => HttpResp.ok (Json.obj [("events", Json.arr [])])) none).outcome =
      SyncOutcome.success [] ∧
    (get_competitions (fun _ => SolveStep.ok [("cf_clearance", "z")])
        (fun _ _ => HttpResp.forbidden) none).outcome = SyncOutcome.authExhausted ∧
    sync_competitions_route (outcomeList
        (get_competitions (fun _ => SolveStep.ok [("cf_clearance", "z")])
          (fun _ _ => HttpResp.ok (Json.obj [("events", Json.arr [])])) none).outcome) =
      sync_competitions_route (outcomeList
        (get_competitions (fun _ => SolveStep.ok [("cf_clearance", "z")])
          (fun _ _ => HttpResp.forbidden) none).outcome) ∧
    SyncOutcome.success [] ≠ SyncOutcome.authExhausted :=
  ⟨rfl, rfl, rfl, fun h => SyncOutcome.noConfusion h⟩

/-- Witness: the amended C7 statement at a non-empty and an empty list. -/
theorem route_reports_list_only_witness :
    sync_competitions_route [[("id", Json.num 1)]] = sync_competitions_route [] ↔
      ([[("id", Json.num 1)]] : List PyDict) = [] :=
  route_reports_list_only [[("id", Json.num 1)]] []

/-! ## Claim C3 -/

/-- Under a solver that always succeeds with a non-empty cookie list,
get_cookies always hands back a non-empty dict, leaves the cookie file
present, and touches neither the HTTP counter nor the invalidation
counter. -/
theorem get_cookies_under_solver (solver : Nat → SolveStep)
    (hs : ∀ n, ∃ cs, solver n = SolveStep.ok cs ∧ cs ≠ []) (st : SyncState) :
    ∃ d st2, get_cookies solver st = (CookieLoad.got d, st2) ∧ d.isEmpty = false ∧
      st2.file.isSome = true ∧ st2.httpCount = st.httpCount ∧
      st2.invalidations = st.invalidations := by
  obtain ⟨cs, hcs, hne⟩ := hs st.solveCount
  cases hfile : st.file with
  | none =>
    refine ⟨pyDict cs,
      { st with file := some (FileContent.good cs), solveCount := st.solveCount + 1 },
      ?_, pyDict_isEmpty_false cs hne, rfl, rfl, rfl⟩
    simp [get_cookies, hfile, cookiesRefresh, hcs]
  | some fc =>
    cases fc with
    | corrupt =>
      refine ⟨pyDict cs,
        { st with file := some (FileContent.good cs), solveCount := st.solveCount + 1 },
        ?_, pyDict_isEmpty_false cs hne, rfl, rfl, rfl⟩
      simp [get_cookies, hfile, cookiesRefresh, hcs]
    | good cs0 =>
      by_cases hcl : hasClearance (pyDict cs0) = true
      · refine ⟨pyDict cs0, st, ?_, hasClearance_isEmpty_false _ hcl, ?_, rfl, rfl⟩
        · simp [get_cookies, hfile, hcl]
        · simp [hfile]
      · refine ⟨pyDict cs,
          { st with file := some (FileContent.good cs), solveCount := st.solveCount + 1 },
          ?_, pyDict_isEmpty_false cs hne, rfl, rfl, rfl⟩
        simp [get_cookies, hfile, cookiesRefresh, hcs, hcl]

/-- With a working solver and a remote that answers 403 to everything, every
remaining attempt issues one HTTP request, removes the cookie file once, and
the loop falls through to the authExhausted return. -/
theorem loop_forbidden (solver : Nat → SolveStep) (http : Nat → CookieList → HttpResp)
    (hs : ∀ n, ∃ cs, solver n = SolveStep.ok cs ∧ cs ≠ [])
    (hh : ∀ n c, http n c = HttpResp.forbidden) :
    ∀ (fuel : Nat) (st : SyncState),
      (get_competitions_loop solver http st fuel).outcome = SyncOutcome.authExhausted ∧
      (get_competitions_loop solver http st fuel).st.httpCount = st.httpCount + fuel ∧
      (get_competitions_loop solver http st fuel).st.invalidations =
        st.invalidations + fuel := by
  intro fuel
  induction fuel with
  | zero => intro st; exact ⟨rfl, rfl, rfl⟩
  | succ f ih =>
    intro st
    obtain ⟨d, st2, hgc, hdne, hfs, hhc, hinv⟩ := get_cookies_under_solver solver hs st
    have hone : get_competitions_loop solver http st (f + 1) =
        get_competitions_loop solver http
          { file := none, solveCount := st2.solveCount,
            httpCount := st2.httpCount + 1, invalidations := st2.invalidations + 1 } f := by
      simp [get_competitions_loop, hgc, hdne, hh, hfs]
    obtain ⟨o, hc, iv⟩ :=
      ih { file := none, solveCount := st2.solveCount,
           httpCount := st2.httpCount + 1, invalidations := st2.invalidations + 1 }
    refine ⟨?_, ?_, ?_⟩
    · rw [hone]; exact o
    · rw [hone, hc]
      show st2.httpCount + 1 + f = st.httpCount + (f + 1)
      rw [hhc]; omega
    · rw [hone, iv]
      show st2.invalidations + 1 + f = st.invalidations + (f + 1)
      rw [hinv]; omega

/-- Claim C3: for every initial credential-file state, if credential refresh
always succeeds (so an HTTP attempt is made) and the remote answers every
request with 403, get_competitions ends in the authExhausted fall-through
after exactly 2 HTTP attempts, with the credential file deleted exactly
twice. -/
theorem auth_exhausted_two_attempts (solver : Nat → SolveStep)
    (http : Nat → CookieList → HttpResp) (initFile : Option FileContent)
    (hs : ∀ n, ∃ cs, solver n = SolveStep.ok cs ∧ cs ≠ [])
    (hh : ∀ n c, http n c = HttpResp.forbidden) :
    (get_competitions solver http initFile).outcome = SyncOutcome.authExhausted ∧
    (get_competitions solver http initFile).st.httpCount = 2 ∧
    (get_competitions solver http initFile).st.invalidations = 2 := by
  have h := loop_forbidden solver http hs hh 2 ⟨initFile, 0, 0, 0⟩
  simpa [get_competitions] using h

/-- Witness: a concrete always-403 remote with a working solver exhausts both
attempts and invalidates twice. -/
theorem auth_exhausted_two_attempts_witness :
    (get_competitions (fun _ => SolveStep.ok [("cf_clearance", "c")])
        (fun _ _ => HttpResp.forbidden) none).outcome = SyncOutcome.authExhausted ∧
    (get_competitions (fun _ => SolveStep.ok [("cf_clearance", "c")])
        (fun _ _ => HttpResp.forbidden) none).st.httpCount = 2 ∧
    (get_competitions (fun _ => SolveStep.ok [("cf_clearance", "c")])
        (fun _ _ => HttpResp.forbidden) none).st.invalidations = 2 :=
  auth_exhausted_two_attempts (fun _ => SolveStep.ok [("cf_clearance", "c")])
    (fun _ _ => HttpResp.forbidden) none
    (fun _ => ⟨[("cf_clearance", "c")], rfl, by simp⟩) (fun _ _ => rfl)

/-! ## Claim C8 -/

/-- Whether the row `q` conflicts with the row inserted for record `c`:
only a non-NULL inserted id conflicts, and only with an equal non-NULL id. -/
def idMatches (q : Row) (c : PyDict) : Bool :=
  match (rowOf c).id with
  | some k =>
    match q.id with
    | some k2 => sqlEq k2 k
    | none => false
  | none => false

theorem upsertOne_eq_filter (rows : List Row) (c : PyDict) :
    upsertOne rows c = rows.filter (fun q => !(idMatches q c)) ++ [rowOf c] := by
  unfold upsertOne
  cases h : (rowOf c).id with
  | none =>
    have hp : (fun q => !(idMatches q c)) = fun _ => true := by
      funext q
      unfold idMatches
      rw [h]
      rfl
    rw [hp]
    simp
  | some k =>
    dsimp only
    congr 1
    apply List.filter_congr
    intro q _
    unfold idMatches
    rw [h]
    cases q.id with
    | none => rfl
    | some k2 => rfl

theorem save_fold_decompose (comps : List PyDict) :
    ∀ rows : List Row,
      comps.foldl upsertOne rows =
        rows.filter (fun q => !(comps.any (fun c => idMatches q c))) ++
          comps.foldl upsertOne [] := by
  induction comps with
  | nil => intro rows; simp
  | cons c cs ih =>
    intro rows
    rw [List.foldl_cons, ih (upsertOne rows c), List.foldl_cons, ih (upsertOne [] c),
      upsertOne_eq_filter rows c, upsertOne_eq_filter [] c, List.filter_append,
      List.filter_filter]
    simp only [List.filter_nil, List.nil_append, List.append_assoc]
    congr 1
    apply List.filter_congr
    intro q _
    simp [List.any_cons, Bool.and_comm]

theorem mem_fold_upsert (comps : List PyDict) :
    ∀ (rows : List Row) (q : Row), q ∈ comps.foldl upsertOne rows →
      q ∈ rows ∨ ∃ c ∈ comps, q = rowOf c := by
  induction comps with
  | nil => intro rows q hq; exact Or.inl hq
  | cons c cs ih =>
    intro rows q hq
    rw [List.foldl_cons] at hq
    rcases ih (upsertOne rows c) q hq with h1 | h2
    · rw [upsertOne_eq_filter] at h1
      rcases List.mem_append.mp h1 with h3 | h3
      · exact Or.inl (List.mem_of_mem_filter h3)
      · exact Or.inr ⟨c, List.mem_cons_self c cs, by simpa using h3⟩
    · obtain ⟨c2, hc2, he⟩ := h2
      exact Or.inr ⟨c2, List.mem_cons_of_mem c hc2, he⟩

theorem sqlEq_refl_of_sqlVal (v : Option Json) (hb : bindableV v = true) (k : Json)
    (h : sqlVal v = some k) : sqlEq k k = true := by
  cases v with
  | none => simp [sqlVal] at h
  | some j =>
    cases j with
    | null => simp [sqlVal] at h
    | bool b =>
      have hk := Option.some.inj h
      rw [← hk]
      simp [sqlEq]
    | num i =>
      have hk := Option.some.inj h
      rw [← hk]
      simp [sqlEq]
    | str s =>
      have hk := Option.some.inj h
      rw [← hk]
      simp [sqlEq]
    | arr l => exact absurd hb (by simp [bindableV])
    | obj l => exact absurd hb (by simp [bindableV])

theorem idMatches_rowOf (c : PyDict) (hbind : recBindable c = true) (k : Json)
    (hk : (rowOf c).id = some k) : idMatches (rowOf c) c = true := by
  have hbid : bindableV (pyLookup c "id") = true := by
    have h2 := hbind
    unfold recBindable at h2
    simp only [Bool.and_eq_true] at h2
    exact h2.1.1
  have hrefl : sqlEq k k = true := sqlEq_refl_of_sqlVal (pyLookup c "id") hbid k hk
  unfold idMatches
  rw [hk]
  dsimp only
  exact hrefl

theorem fold_upsert_filter_self (comps : List PyDict)
    (hbind : comps.all recBindable = true)
    (hid : ∀ c ∈ comps, ((rowOf c).id).isSome = true) :
    (comps.foldl upsertOne []).filter
      (fun q => !(comps.any (fun c => idMatches q c))) = [] := by
  rw [List.filter_eq_nil_iff]
  intro q hq
  rcases mem_fold_upsert comps [] q hq with h | ⟨c, hc, rfl⟩
  · simp at h
  · obtain ⟨k, hk⟩ := Option.isSome_iff_exists.mp (hid c hc)
    have hmatch : idMatches (rowOf c) c = true :=
      idMatches_rowOf c (List.all_eq_true.mp hbind c hc) k hk
    simp only [Bool.not_eq_true', Bool.not_eq_false]
    exact List.any_eq_true.mpr ⟨c, hc, hmatch⟩

/-- Claim C8 (amended: every record must carry a non-null id — a record whose
id binds NULL is inserted as a fresh row each time, since SQLite permits and
distinguishes NULLs in a TEXT PRIMARY KEY): for every database state and
every such list of records, applying save_competitions twice with the
identical list leaves the table in the same state as applying it once. -/
theorem save_competitions_idempotent (rows : List Row) (comps : List PyDict)
    (hid : ∀ c ∈ comps, ((rowOf c).id).isSome = true) :
    save_competitions (save_competitions rows comps) comps =
      save_competitions rows comps := by
  unfold save_competitions
  cases hb : comps.all recBindable with
  | false => simp
  | true =>
    simp only [if_true]
    rw [save_fold_decompose comps rows, save_fold_decompose comps
      (rows.filter (fun q => !(comps.any (fun c => idMatches q c))) ++
        comps.foldl upsertOne []),
      List.filter_append, List.filter_filter]
    have hT : (comps.foldl upsertOne []).filter
        (fun q => !(comps.any (fun c => idMatches q c))) = [] :=
      fold_upsert_filter_self comps hb hid
    rw [hT]
    simp only [List.nil_append, List.append_nil]
    congr 1
    apply List.filter_congr
    intro q _
    simp

/-- Claim C8, as stated, is false: a record without an id binds NULL into the
TEXT PRIMARY KEY column, conflicts with nothing, and is appended again on the
second application — the table ends with 2 rows instead of 1. -/
theorem save_competitions_idempotent_counterexample :
    (save_competitions (save_competitions [] [[("name", Json.str "A")]])
        [[("name", Json.str "A")]]).length = 2 ∧
    (save_competitions [] [[("name", Json.str "A")]]).length = 1 ∧
    save_competitions (save_competitions [] [[("name", Json.str "A")]])
        [[("name", Json.str "A")]] ≠
      save_competitions [] [[("name", Json.str "A")]] := by
  refine ⟨rfl, rfl, fun h => ?_⟩
  have hl := congrArg List.length h
  rw [show (save_competitions (save_competitions [] [[("name", Json.str "A")]])
        [[("name", Json.str "A")]]).length = 2 from rfl,
    show (save_competitions [] [[("name", Json.str "A")]]).length = 1 from rfl] at hl
  exact absurd hl (by decide)

/-- A record carrying an id, for the C8 witness. -/
def compW : PyDict := [("id", Json.str "1"), ("name", Json.str "A")]

/-- Witness: upserting a keyed record twice equals upserting it once. -/
theorem save_competitions_idempotent_witness :
    save_competitions (save_competitions [] [compW]) [compW] =
      save_competitions [] [compW] :=
  save_competitions_idempotent [] [compW]
    (by intro c hc
        have hc2 : c = compW := by simpa using hc
        subst hc2
        rfl)

/-! ## Claim C10 : ordering lemmas -/

theorem chListLe_total : ∀ as bs : List Char, chListLe as bs = true ∨ chListLe bs as = true := by
  intro as
  induction as with
  | nil => intro bs; exact Or.inl rfl
  | cons a as2 ih =>
    intro bs
    cases bs with
    | nil => exact Or.inr rfl
    | cons b bs2 =>
      by_cases h1 : a.toNat < b.toNat
      · left
        rw [chListLe, if_pos h1]
      · by_cases h2 : b.toNat < a.toNat
        · right
          rw [chListLe, if_pos h2]
        · rcases ih bs2 with h | h
          · left
            rw [chListLe, if_neg h1, if_neg h2]
            exact h
          · right
            rw [chListLe, if_neg h2, if_neg h1]
            exact h

theorem chListLe_trans : ∀ as bs cs : List Char, chListLe as bs = true →
    chListLe bs cs = true → chListLe as cs = true := by
  intro as
  induction as with
  | nil => intro bs cs _ _; rfl
  | cons a as2 ih =>
    intro bs cs h1 h2
    cases bs with
    | nil => rw [chListLe] at h1; exact absurd h1 (by simp)
    | cons b bs2 =>
      cases cs with
      | nil => rw [chListLe] at h2; exact absurd h2 (by simp)
      | cons c cs2 =>
        by_cases hab : a.toNat < b.toNat
        · by_cases hbc : b.toNat < c.toNat
          · rw [chListLe, if_pos (show a.toNat < c.toNat by omega)]
          · by_cases hcb : c.toNat < b.toNat
            · rw [chListLe, if_neg hbc, if_pos hcb] at h2
              exact absurd h2 (by simp)
            · rw [chListLe, if_pos (show a.toNat < c.toNat by omega)]
        · by_cases hba : b.toNat < a.toNat
          · rw [chListLe, if_neg hab, if_pos hba] at h1
            exact absurd h1 (by simp)
          · by_cases hbc : b.toNat < c.toNat
            · rw [chListLe, if_pos (show a.toNat < c.toNat by omega)]
            · by_cases hcb : c.toNat < b.toNat
              · rw [chListLe, if_neg hbc, if_pos hcb] at h2
                exact absurd h2 (by simp)
              · rw [chListLe, if_neg hab, if_neg hba] at h1
                rw [chListLe, if_neg hbc, if_neg hcb] at h2
                rw [chListLe, if_neg (show ¬ a.toNat < c.toNat by omega),
                  if_neg (show ¬ c.toNat < a.toNat by omega)]
                exact ih bs2 cs2 h1 h2

theorem strLe_total (s t : String) : strLe s t = true ∨ strLe t s = true :=
  chListLe_total s.data t.data

theorem strLe_trans (s t u : String) (h1 : strLe s t = true) (h2 : strLe t u = true) :
    strLe s u = true :=
  chListLe_trans s.data t.data u.data h1 h2

theorem tripLe_total (x y : Nat × Int × String) : tripLe x y = true ∨ tripLe y x = true := by
  obtain ⟨ra, ia, sa⟩ := x
  obtain ⟨rb, ib, sb⟩ := y
  by_cases h1 : ra < rb
  · left; rw [tripLe, if_pos h1]
  · by_cases h2 : rb < ra
    · right; rw [tripLe, if_pos h2]
    · by_cases h3 : ia < ib
      · left; rw [tripLe, if_neg h1, if_neg h2, if_pos h3]
      · by_cases h4 : ib < ia
        · right; rw [tripLe, if_neg h2, if_neg h1, if_pos h4]
        · rcases strLe_total sa sb with h | h
          · left
            rw [tripLe, if_neg h1, if_neg h2, if_neg h3, if_neg h4]
            exact h
          · right
            rw [tripLe, if_neg h2, if_neg h1, if_neg h4, if_neg h3]
            exact h

theorem tripLe_trans (x y z : Nat × Int × String) (h1 : tripLe x y = true)
    (h2 : tripLe y z = true) : tripLe x z = true := by
  obtain ⟨ra, ia, sa⟩ := x
  obtain ⟨rb, ib, sb⟩ := y
  obtain ⟨rc, ic, sc⟩ := z
  rw [tripLe] at h1 h2 ⊢
  by_cases hab : ra < rb
  · by_cases hbc : rb < rc
    · rw [if_pos (show ra < rc by omega)]
    · by_cases hcb : rc < rb
      · rw [if_neg hbc, if_pos hcb] at h2
        exact absurd h2 (by simp)
      · rw [if_pos (show ra < rc by omega)]
  · by_cases hba : rb < ra
    · rw [if_neg hab, if_pos hba] at h1
      exact absurd h1 (by simp)
    · by_cases hbc : rb < rc
      · rw [if_pos (show ra < rc by omega)]
      · by_cases hcb : rc < rb
        · rw [if_neg hbc, if_pos hcb] at h2
          exact absurd h2 (by simp)
        · rw [if_neg hab, if_neg hba] at h1
          rw [if_neg hbc, if_neg hcb] at h2
          rw [if_neg (show ¬ ra < rc by omega), if_neg (show ¬ rc < ra by omega)]
          by_cases iab : ia < ib
          · by_cases ibc : ib < ic
            · rw [if_pos (show ia < ic by omega)]
            · by_cases icb : ic < ib
              · rw [if_neg ibc, if_pos icb] at h2
                exact absurd h2 (by simp)
              · rw [if_pos (show ia < ic by omega)]
          · by_cases iba : ib < ia
            · rw [if_neg iab, if_pos iba] at h1
              exact absurd h1 (by simp)
            · by_cases ibc : ib < ic
              · rw [if_pos (show ia < ic by omega)]
              · by_cases icb : ic < ib
                · rw [if_neg ibc, if_pos icb] at h2
                  exact absurd h2 (by simp)
                · rw [if_neg iab, if_neg iba] at h1
                  rw [if_neg ibc, if_neg icb] at h2
                  rw [if_neg (show ¬ ia < ic by omega), if_neg (show ¬ ic < ia by omega)]
                  exact strLe_trans sa sb sc h1 h2

theorem rowLe_total (a b : Row) : rowLe a b = true ∨ rowLe b a = true :=
  tripLe_total (jkey (rowDateKey a)) (jkey (rowDateKey b))

theorem rowLe_trans (a b c : Row) (h1 : rowLe a b = true) (h2 : rowLe b c = true) :
    rowLe a c = true :=
  tripLe_trans (jkey (rowDateKey a)) (jkey (rowDateKey b)) (jkey (rowDateKey c)) h1 h2

/-! ## Claim C10 : sortedness of the DB read -/

theorem insertRow_perm (r : Row) (l : List Row) :
    List.Perm (insertRow r l) (r :: l) := by
  induction l with
  | nil => exact List.Perm.refl _
  | cons x xs ih =>
    by_cases h : rowLe r x = true
    · rw [insertRow, if_pos h]
    · rw [insertRow, if_neg h]
      exact (ih.cons x).trans (List.Perm.swap r x xs)

theorem sortRows_perm (l : List Row) : List.Perm (sortRows l) l := by
  induction l with
  | nil => exact List.Perm.refl _
  | cons x xs ih => exact (insertRow_perm x (sortRows xs)).trans (ih.cons x)

theorem sorted_insertRow (r : Row) (l : List Row)
    (hl : List.Pairwise (fun a b => rowLe a b = true) l) :
    List.Pairwise (fun a b => rowLe a b = true) (insertRow r l) := by
  induction l with
  | nil => simp [insertRow]
  | cons x xs ih =>
    rcases List.pairwise_cons.mp hl with ⟨hx, hxs⟩
    by_cases h : rowLe r x = true
    · rw [insertRow, if_pos h]
      refine List.Pairwise.cons ?_ (List.pairwise_cons.mpr ⟨hx, hxs⟩)
      intro y hy
      rcases List.mem_cons.mp hy with rfl | hy2
      · exact h
      · exact rowLe_trans r x y h (hx y hy2)
    · rw [insertRow, if_neg h]
      have hxr : rowLe x r = true := by
        rcases rowLe_total r x with h2 | h2
        · exact absurd h2 h
        · exact h2
      refine List.Pairwise.cons ?_ (ih hxs)
      intro y hy
      have hy2 := (insertRow_perm r xs).mem_iff.mp hy
      rcases List.mem_cons.mp hy2 with rfl | hy3
      · exact hxr
      · exact hx y hy3

theorem sortRows_sorted (l : List Row) :
    List.Pairwise (fun a b => rowLe a b = true) (sortRows l) := by
  induction l with
  | nil => exact List.Pairwise.nil
  | cons x xs ih => exact sorted_insertRow x (sortRows xs) ih

/-- Claim C10: for every database state, get_competitions_from_db returns
exactly the stored rows (as id/name/start_date dicts, a permutation of the
table contents) arranged in ascending ORDER BY start_date order — NULL
first, then numeric, then text under the BINARY collation — and on a
database error it returns the empty list instead of raising. -/
theorem db_list_sorted (rows : List Row) :
    List.Perm (get_competitions_from_db (some rows)) (rows.map rowToDict) ∧
    List.Pairwise (fun a b =>
      keyLe ((pyLookup a "start_date").getD Json.null)
        ((pyLookup b "start_date").getD Json.null) = true)
      (get_competitions_from_db (some rows)) ∧
    get_competitions_from_db none = [] := by
  refine ⟨?_, ?_, rfl⟩
  · show List.Perm ((sortRows rows).map rowToDict) (rows.map rowToDict)
    exact (sortRows_perm rows).map rowToDict
  · show List.Pairwise _ ((sortRows rows).map rowToDict)
    rw [List.pairwise_map]
    exact sortRows_sorted rows

/-- Two concrete rows stored out of date order. -/
def rowsC10 : List Row :=
  [⟨some (Json.str "b"), some (Json.str "B"), some (Json.str "2026-01-01")⟩,
   ⟨some (Json.str "a"), some (Json.str "A"), some (Json.str "2025-01-01")⟩]

/-- Witness: the C10 statement at a concrete two-row table, together with the
concrete sorted output. -/
theorem db_list_sorted_witness :
    List.Perm (get_competitions_from_db (some rowsC10)) (rowsC10.map rowToDict) ∧
    get_competitions_from_db none = [] ∧
    get_competitions_from_db (some rowsC10) =
      [[("id", Json.str "a"), ("name", Json.str "A"), ("start_date", Json.str "2025-01-01")],
       [("id", Json.str "b"), ("name", Json.str "B"), ("start_date", Json.str "2026-01-01")]] :=
  ⟨(db_list_sorted rowsC10).1, (db_list_sorted rowsC10).2.2, rfl⟩
